import Mathlib

/-!
Verification development for the Fyona canvas editor.

The definitions below are a shallow embedding of the block manipulation and
layout-state synchronization code of the repository:

* `src/static/js/src/pages.js` — the current client (editor state, pointer
  drag/resize, inspector numeric inputs, zoom/fit-to-panel, block CRUD);
* `src/legacy/static/js/app.js` — the legacy client's layout loading;
* `src/legacy/src/blocks.js` — the legacy debounced save (`scheduleSave`);
* the Flask server's `/api/block` handler (delete branch).

JavaScript numbers are embedded as rationals (`ℚ`); stored block geometry is
integral (`ℤ`) because the code rounds every stored coordinate.  JS `Map`s are
embedded as association lists with JS `Map.set`/`Map.delete` semantics.
Values that may be `undefined`/non-finite are embedded as `Option`.
-/

namespace Fyona

/-- JS `Map.get`: first binding of the key, if any. -/
def mapGet {β : Type} : List (String × β) → String → Option β
  | [], _ => none
  | p :: rest, k => if p.1 = k then some p.2 else mapGet rest k

/-- JS `Map.set`: overwrite the existing binding in place, else append. -/
def mapSet {β : Type} : List (String × β) → String → β → List (String × β)
  | [], k, v => [(k, v)]
  | p :: rest, k, v => if p.1 = k then (k, v) :: rest else p :: mapSet rest k v

/-- JS `Map.delete`: drop the binding of the key. -/
def mapDelete {β : Type} : List (String × β) → String → List (String × β)
  | [], _ => []
  | p :: rest, k => if p.1 = k then rest else p :: mapDelete rest k

/-- Membership test on a list of keys. -/
def hasKey : List String → String → Bool
  | [], _ => false
  | x :: r, k => if x = k then true else hasKey r k

/-- Insert a key if absent (set semantics of the element map's key set). -/
def insertKey (l : List String) (k : String) : List String :=
  if hasKey l k then l else l ++ [k]

/-- Remove the first occurrence of a key. -/
def removeKey : List String → String → List String
  | [], _ => []
  | x :: r, k => if x = k then r else x :: removeKey r k

/-- Block geometry, `position` in `pages.js`: stored page-unit coordinates.
All stored fields are integers because the code rounds them on every write. -/
structure Position where
  left : ℤ
  top : ℤ
  width : ℤ
  height : ℤ
deriving DecidableEq

/-- A block record of the current client (`pages.js`). -/
structure Block where
  id : String
  type : String
  content : String
  backgroundColor : String
  textColor : String
  borderRadius : ℚ
  imageUrl : Option String
  position : Position
deriving DecidableEq

/-- Raw position as received from the server (fields may be absent). -/
structure RawPosition where
  left : Option ℚ
  top : Option ℚ
  width : Option ℚ
  height : Option ℚ
deriving DecidableEq

/-- Raw block as received from the server (fields may be absent). -/
structure RawBlock where
  id : Option String
  type : Option String
  content : Option String
  backgroundColor : Option String
  textColor : Option String
  borderRadius : Option ℚ
  imageUrl : Option String
  position : Option RawPosition
deriving DecidableEq

/-- Page dimensions in pixels. -/
structure Dimensions where
  width : ℚ
  height : ℚ
deriving DecidableEq

/-- A layout object as fetched from `/api/layout` (fields may be absent). -/
structure Layout where
  format : Option String
  orientation : Option String
  dimensions : Option Dimensions
  blocks : List RawBlock
deriving DecidableEq

/-- Pointer interaction mode (`'drag' | 'resize'`). -/
inductive PointerMode where
  | drag
  | resize
deriving DecidableEq

/-- `state.activePointer` in `pages.js`. -/
structure ActivePointer where
  blockId : String
  pointerId : ℕ
  mode : PointerMode
  startX : ℚ
  startY : ℚ
  originLeft : ℤ
  originTop : ℤ
  originWidth : ℤ
  originHeight : ℤ
deriving DecidableEq

/-- The mutable `state` object of `pages.js`.  `blockElements` keeps only the
key set of the id → DOM-element map (the elements themselves are rendering
artifacts). -/
structure EditorState where
  project : String
  layout : Option Layout
  blocks : List (String × Block)
  blockOrder : List String
  blockElements : List String
  selectedId : Option String
  activePointer : Option ActivePointer
  format : String
  orientation : String
  zoom : ℚ
deriving DecidableEq

/-- JS `x || d` for numbers: `undefined`/`NaN` and `0` fall back to the default. -/
def jsOrNum (v : Option ℚ) (d : ℚ) : ℚ :=
  match v with
  | none => d
  | some q => if q = 0 then d else q

/-- JS `x || d` for strings: `undefined` and the empty string fall back. -/
def jsOrStr (v : Option String) (d : String) : String :=
  match v with
  | none => d
  | some s => if s = "" then d else s

/-- `normalizeBlock` in `pages.js`: fill defaults and clamp geometry.
`genId` stands for the `generateClientId()` fallback. -/
def normalizeBlock (genId : String) (raw : RawBlock) : Block :=
  let pos := raw.position.getD ⟨none, none, none, none⟩
  { id := jsOrStr raw.id genId
    type := jsOrStr raw.type "text"
    content := raw.content.getD ""
    backgroundColor := raw.backgroundColor.getD "#ffffff"
    textColor := raw.textColor.getD "#1c2333"
    borderRadius := raw.borderRadius.getD 12
    imageUrl :=
      match raw.imageUrl with
      | none => none
      | some s => if s = "" then none else some s
    position :=
      { left := round (jsOrNum pos.left 0)
        top := round (jsOrNum pos.top 0)
        width := max 40 (round (jsOrNum pos.width 240))
        height := max 40 (round (jsOrNum pos.height 140)) } }

/-- `clampNumber` in `pages.js`. -/
def clampNumber (value minV maxV : ℚ) : ℚ :=
  min maxV (max minV value)

/-- `Number(q.toFixed(2))`: round to two decimal places. -/
def roundTo2 (q : ℚ) : ℚ :=
  (round (100 * q) : ℤ) / 100

/-- `ZOOM_CONFIG` in `pages.js`. -/
def ZOOM_MIN : ℚ := 1 / 2
/-- `ZOOM_CONFIG.max`. -/
def ZOOM_MAX : ℚ := 5
/-- `ZOOM_CONFIG.step`. -/
def ZOOM_STEP : ℚ := 1 / 10

/-- `setCanvasZoom` in `pages.js`; `value = none` models a non-finite input
(the code then keeps the current zoom as the clamp argument). -/
def setCanvasZoom (s : EditorState) (value : Option ℚ) : EditorState :=
  let zoom := clampNumber (value.getD s.zoom) ZOOM_MIN ZOOM_MAX
  { s with zoom := roundTo2 zoom }

/-- `adjustCanvasZoom` in `pages.js`. -/
def adjustCanvasZoom (s : EditorState) (delta : ℚ) : EditorState :=
  let raw := s.zoom + delta
  let snapped := (round (raw / ZOOM_STEP) : ℤ) * ZOOM_STEP
  setCanvasZoom s (some (roundTo2 snapped))

/-- `handleZoomWheel` in `pages.js`: requires a ctrl/meta modifier and a
nonzero `deltaY`. -/
def handleZoomWheel (s : EditorState) (ctrlOrMeta : Bool) (deltaY : ℚ) : EditorState :=
  if !ctrlOrMeta then s
  else if deltaY = 0 then s
  else adjustCanvasZoom s (if deltaY < 0 then ZOOM_STEP else -ZOOM_STEP)

/-- `fitCanvasToPanel` in `pages.js`: compute a fit zoom from the page
dimensions and the panel's content width, with a 120px floor on the
available width and a 0.01 dead-band against the current zoom. -/
def fitCanvasToPanel (s : EditorState) (clientWidth paddingX : ℚ) : EditorState :=
  match s.layout with
  | none => s
  | some layout =>
    match layout.dimensions with
    | none => s
    | some dims =>
      if dims.width = 0 ∨ dims.height = 0 then s
      else
        let availableWidth := max (clientWidth - paddingX) 120
        if availableWidth ≤ 0 then s
        else
          let widthZoom := availableWidth / dims.width
          if widthZoom ≤ 0 then s
          else
            let nextZoom := clampNumber widthZoom ZOOM_MIN ZOOM_MAX
            if |nextZoom - s.zoom| < 1 / 100 then s
            else setCanvasZoom s (some nextZoom)

/-- `selectBlock` in `pages.js`: no-op when already selected; requires both a
rendered element and a store entry, otherwise the selection is cleared. -/
def selectBlock (s : EditorState) (blockId : String) : EditorState :=
  if s.selectedId = some blockId then s
  else
    match mapGet s.blocks blockId, hasKey s.blockElements blockId with
    | some _, true => { s with selectedId := some blockId }
    | _, _ => { s with selectedId := none }

/-- `deselectBlock` in `pages.js`. -/
def deselectBlock (s : EditorState) : EditorState :=
  { s with selectedId := none }

/-- `getSelectedBlock` in `pages.js`. -/
def getSelectedBlock (s : EditorState) : Option Block :=
  match s.selectedId with
  | none => none
  | some sid => mapGet s.blocks sid

/-- `startPointerInteraction` in `pages.js`: refuses to start while another
interaction is active; records origin geometry and pointer start. -/
def startPointerInteraction (s : EditorState) (pointerId : ℕ) (clientX clientY : ℚ)
    (blockId : String) (mode : PointerMode) : EditorState :=
  match s.activePointer with
  | some _ => s
  | none =>
    match mapGet s.blocks blockId, hasKey s.blockElements blockId with
    | some block, true =>
      { s with activePointer := some (
        { blockId := blockId
          pointerId := pointerId
          mode := mode
          startX := clientX
          startY := clientY
          originLeft := block.position.left
          originTop := block.position.top
          originWidth := block.position.width
          originHeight := block.position.height } : ActivePointer) }
    | _, _ => s

/-- The block element's `pointerdown` handler in `pages.js`: select, then start
a drag (block body) or resize (resize handle) interaction. -/
def blockPointerDown (s : EditorState) (pointerId : ℕ) (clientX clientY : ℚ)
    (blockId : String) (onResizeHandle : Bool) : EditorState :=
  let s1 := selectBlock s blockId
  startPointerInteraction s1 pointerId clientX clientY blockId
    (if onResizeHandle then PointerMode.resize else PointerMode.drag)

/-- `handlePointerMove` in `pages.js`: while a matching interaction is active,
drag sets left/top and resize sets width/height (floored at 40) from the
origin geometry plus the pointer delta divided by the zoom scale. -/
def handlePointerMove (s : EditorState) (pointerId : ℕ) (clientX clientY : ℚ) : EditorState :=
  match s.activePointer with
  | none => s
  | some active =>
    if pointerId ≠ active.pointerId then s
    else
      match mapGet s.blocks active.blockId with
      | none => s
      | some block =>
        let dx := clientX - active.startX
        let dy := clientY - active.startY
        let scale := if s.zoom = 0 then 1 else s.zoom
        let newPos :=
          match active.mode with
          | PointerMode.drag =>
            { block.position with
                left := round ((active.originLeft : ℚ) + dx / scale)
                top := round ((active.originTop : ℚ) + dy / scale) }
          | PointerMode.resize =>
            { block.position with
                width := max 40 (round ((active.originWidth : ℚ) + dx / scale))
                height := max 40 (round ((active.originHeight : ℚ) + dy / scale)) }
        { s with blocks := mapSet s.blocks active.blockId ({ block with position := newPos }) }

/-- `endPointerInteraction` in `pages.js`: clears the active interaction (the
final geometry is persisted over the network, which does not touch state). -/
def endPointerInteraction (s : EditorState) (pointerId : ℕ) : EditorState :=
  match s.activePointer with
  | none => s
  | some active =>
    if pointerId ≠ active.pointerId then s
    else { s with activePointer := none }

/-- The numeric inspector fields bound by `bindNumericInput` in `pages.js`. -/
inductive NumField where
  | left
  | top
  | width
  | height
deriving DecidableEq

/-- The `min` argument passed to `bindNumericInput`: 40 for width/height,
`null` for left/top. -/
def numFieldMin : NumField → Option ℚ
  | NumField.width => some 40
  | NumField.height => some 40
  | _ => none

/-- Write one field of a position record. -/
def setPosField (field : NumField) (v : ℤ) (p : Position) : Position :=
  match field with
  | NumField.left => { p with left := v }
  | NumField.top => { p with top := v }
  | NumField.width => { p with width := v }
  | NumField.height => { p with height := v }

/-- The `change` handler installed by `bindNumericInput` in `pages.js`:
non-finite input falls back to 0, the optional minimum is applied, the value
is rounded and written to the selected block. -/
def numericInputChange (s : EditorState) (field : NumField) (inputValue : Option ℚ) :
    EditorState :=
  match s.selectedId with
  | none => s
  | some sid =>
    match mapGet s.blocks sid with
    | none => s
    | some block =>
      let v0 := inputValue.getD 0
      let v1 :=
        match numFieldMin field with
        | some m => if v0 < m then m else v0
        | none => v0
      let block1 := { block with position := setPosField field (round v1) block.position }
      { s with blocks := mapSet s.blocks sid block1 }

/-- One user edit of the kinds quantified over by the minimum-size invariant:
pointer-down (starting a drag or resize), pointer-move, pointer-up, or an
inspector numeric edit. -/
inductive EditOp where
  | pointerDown (pointerId : ℕ) (clientX clientY : ℚ) (blockId : String) (onResizeHandle : Bool)
  | pointerMove (pointerId : ℕ) (clientX clientY : ℚ)
  | pointerUp (pointerId : ℕ)
  | numericEdit (field : NumField) (value : Option ℚ)

/-- Apply one edit to the editor state. -/
def applyEditOp (s : EditorState) : EditOp → EditorState
  | EditOp.pointerDown pid cx cy bid onHandle => blockPointerDown s pid cx cy bid onHandle
  | EditOp.pointerMove pid cx cy => handlePointerMove s pid cx cy
  | EditOp.pointerUp pid => endPointerInteraction s pid
  | EditOp.numericEdit field v => numericInputChange s field v

/-- Apply a sequence of edits left to right. -/
def applyEdits (s : EditorState) (ops : List EditOp) : EditorState :=
  ops.foldl applyEditOp s

/-- Every block in the store has width and height at least 40. -/
def sizeInvariant (s : EditorState) : Prop :=
  ∀ p ∈ s.blocks, 40 ≤ p.2.position.width ∧ 40 ≤ p.2.position.height

instance (s : EditorState) : Decidable (sizeInvariant s) := by
  unfold sizeInvariant
  infer_instance

/-- `createBlock` in `pages.js`.  The remote call is embedded as its outcome:
`none` when the fetch failed or returned non-success (the `catch` branch only
shows a toast), `some raw` carrying the server's block payload.  No state is
touched before the response arrives. -/
def createBlock (s : EditorState) (genId : String) (response : Option RawBlock) :
    EditorState :=
  match response with
  | none => s
  | some data =>
    let block := normalizeBlock genId data
    let s1 := { s with
      blocks := mapSet s.blocks block.id block
      blockOrder := s.blockOrder ++ [block.id]
      blockElements := insertKey s.blockElements block.id }
    selectBlock s1 block.id

/-- `deleteBlock` in `pages.js`.  `ok` is the remote response's success; on
failure the `catch` branch only shows a toast and nothing local changes. -/
def deleteBlock (s : EditorState) (blockId : String) (ok : Bool) : EditorState :=
  if !ok then s
  else
    deselectBlock
      { s with
        blockElements := removeKey s.blockElements blockId
        blocks := mapDelete s.blocks blockId
        blockOrder := s.blockOrder.filter (fun id => id ≠ blockId) }

/-- `CANVAS_PRESETS` in `pages.js`. -/
def CANVAS_PRESETS (format : String) : Option Dimensions :=
  if format = "A5" then some ⟨559, 794⟩
  else if format = "A4" then some ⟨794, 1123⟩
  else if format = "A3" then some ⟨1123, 1587⟩
  else if format = "Letter" then some ⟨816, 1056⟩
  else none

/-- `applyCanvasMeta` in `pages.js`: normalize format/orientation and the page
dimensions (swapping width/height to match the orientation). -/
def applyCanvasMeta (s : EditorState) (layout : Layout) : EditorState :=
  let format :=
    match layout.format with
    | some f => if (CANVAS_PRESETS f).isSome then f else "A4"
    | none => "A4"
  let orientation := if layout.orientation = some "landscape" then "landscape" else "portrait"
  let basePreset := (CANVAS_PRESETS format).getD ⟨794, 1123⟩
  let dims0 :=
    match layout.dimensions with
    | some d => if d.width ≠ 0 ∧ d.height ≠ 0 then d else basePreset
    | none => basePreset
  let dims :=
    if orientation = "landscape" ∧ dims0.width < dims0.height then
      Dimensions.mk dims0.height dims0.width
    else if orientation = "portrait" ∧ dims0.height < dims0.width then
      Dimensions.mk dims0.height dims0.width
    else dims0
  { s with
    format := format
    orientation := orientation
    layout := some { layout with
      format := some format
      orientation := some orientation
      dimensions := some dims } }

/-- `renderCanvas` in `pages.js`, restricted to the element-map key set: an
element is created for each ordered id whose block exists and has a truthy id. -/
def renderElements (blocks : List (String × Block)) (order : List String) : List String :=
  order.foldl
    (fun acc id =>
      match mapGet blocks id with
      | none => acc
      | some b => if b.id = "" then acc else insertKey acc id)
    []

/-- `loadLayout` in `pages.js`.  The remote call is embedded as its outcome:
`none` when the fetch failed or returned non-success — the `catch` branch only
shows a toast, so the state is returned untouched.  On success the store is
cleared and repopulated; `genIds` supplies the `generateClientId()` fallbacks
used for blocks arriving without an id (for such blocks the JS `Map` key is
the raw, absent id; the fallback key stands in for it). -/
def loadLayout (s : EditorState) (project : String) (genIds : ℕ → String)
    (response : Option Layout) : EditorState :=
  match response with
  | none => s
  | some layout =>
    let s1 := { s with
      project := project
      layout := some layout
      blocks := []
      blockElements := []
      blockOrder := [] }
    let s2 := layout.blocks.enum.foldl
      (fun st p =>
        let key := p.2.id.getD (genIds p.1)
        { st with
          blocks := mapSet st.blocks key (normalizeBlock (genIds p.1) p.2)
          blockOrder := st.blockOrder ++ [key] })
      s1
    let s3 := { s2 with blockElements := renderElements s2.blocks s2.blockOrder }
    applyCanvasMeta (deselectBlock s3) layout

/-- A block of the legacy client (`app.js`), as serialized to the canvas. -/
structure LegacyBlock where
  id : String
  type : String
  content : String
  left : ℚ
  top : ℚ
  width : ℚ
  height : ℚ
deriving DecidableEq

/-- A layout of the legacy client (`app.js`). -/
structure LegacyLayout where
  columns : ℚ
  baseline : ℚ
  gutter : ℚ
  snap : Bool
  zoom : ℚ
  orientation : String
  format : String
  dimensions : Dimensions
  blocks : List LegacyBlock
deriving DecidableEq

/-- `getDefaultLayout` in the legacy `app.js`: an empty default layout. -/
def legacyGetDefaultLayout : LegacyLayout :=
  { columns := 3
    baseline := 24
    gutter := 32
    snap := true
    zoom := 1
    orientation := "portrait"
    format := "A4"
    dimensions := ⟨794, 1123⟩
    blocks := [] }

/-- `applyLayout` in the legacy `app.js`: clear the canvas, then recreate the
layout's blocks.  The resulting canvas content is the layout's block list. -/
def legacyApplyLayout (layout : LegacyLayout) : List LegacyBlock :=
  layout.blocks

/-- `loadLayout` in the legacy `app.js`: on any fetch error or non-success
response, apply the default (empty) layout instead. -/
def legacyLoadLayout (response : Option LegacyLayout) : List LegacyBlock :=
  match response with
  | some data => legacyApplyLayout data
  | none => legacyApplyLayout legacyGetDefaultLayout

/-- State of the legacy debounced-save machinery (`scheduleSave` in
`legacy/src/blocks.js`): the document state, the pending timer deadline, and
the record of issued saves. -/
structure DebounceState (α : Type) where
  current : α
  deadline : Option ℚ
  saveCount : ℕ
  lastSaved : Option α
deriving DecidableEq

/-- The timer firing: `saveLayout()` serializes the state current at fire time. -/
def fireSave {α : Type} (s : DebounceState α) : DebounceState α :=
  { s with saveCount := s.saveCount + 1, lastSaved := some s.current, deadline := none }

/-- Let a pending timer fire if its deadline has passed by time `now`. -/
def checkTimer {α : Type} (s : DebounceState α) (now : ℚ) : DebounceState α :=
  match s.deadline with
  | some d => if d ≤ now then fireSave s else s
  | none => s

/-- One edit at time `e.1` producing document state `e.2`, followed by
`scheduleSave`: `clearTimeout` of the pending timer and a fresh
`setTimeout(saveLayout, 500)`.  A timer whose deadline precedes the edit has
already fired. -/
def scheduleSaveStep {α : Type} (s : DebounceState α) (e : ℚ × α) : DebounceState α :=
  let s1 := checkTimer s e.1
  { s1 with current := e.2, deadline := some (e.1 + 500) }

/-- After the burst, an undisturbed pending timer fires. -/
def flushTimer {α : Type} (s : DebounceState α) : DebounceState α :=
  match s.deadline with
  | some _ => fireSave s
  | none => s

/-- Run the debounced-save machinery over a timed sequence of edits, letting
the final timer fire. -/
def runDebounce {α : Type} (init : α) (events : List (ℚ × α)) : DebounceState α :=
  flushTimer (events.foldl scheduleSaveStep ⟨init, none, 0, none⟩)

/-- Consecutive edits within the 500 ms debounce window. -/
def withinWindow {α : Type} (a b : ℚ × α) : Prop :=
  a.1 ≤ b.1 ∧ b.1 - a.1 < 500

instance {α : Type} (a b : ℚ × α) : Decidable (withinWindow a b) := by
  unfold withinWindow
  infer_instance

/-- A block stored by the Flask server: an id plus opaque further fields. -/
structure ServerBlock where
  id : String
  fields : List (String × String)
deriving DecidableEq

/-- A server-side layout; `get_default_layout` fills the other keys. -/
structure ServerLayout where
  columns : ℚ
  baseline : ℚ
  gutter : ℚ
  snap : Bool
  zoom : ℚ
  orientation : String
  format : String
  dimensions : Dimensions
  blocks : List ServerBlock
deriving DecidableEq

/-- `get_default_layout` in the Flask app. -/
def get_default_layout : ServerLayout :=
  { columns := 3
    baseline := 24
    gutter := 32
    snap := true
    zoom := 1
    orientation := "portrait"
    format := "A4"
    dimensions := ⟨794, 1123⟩
    blocks := [] }

/-- The in-place list rewrite `layout['blocks'] = [b for b in layout['blocks']
if b['id'] != block_id]` of the Flask delete branch. -/
def deleteFromLayout (layout : ServerLayout) (blockId : String) : ServerLayout :=
  { layout with blocks := layout.blocks.filter (fun b => b.id != blockId) }

/-- The `delete` branch of `block_api` in the Flask app: get or create the
project's layout, keep only blocks whose id differs, and report success. -/
def blockApiDelete (layouts : List (String × ServerLayout)) (project blockId : String) :
    List (String × ServerLayout) × Bool :=
  let layouts1 :=
    if (mapGet layouts project).isSome then layouts
    else mapSet layouts project get_default_layout
  let layout := (mapGet layouts1 project).getD get_default_layout
  (mapSet layouts1 project (deleteFromLayout layout blockId), true)

/-! Helper lemmas about the JS `Map` embedding. -/

theorem mapGet_mapSet_self {β : Type} (m : List (String × β)) (k : String) (v : β) :
    mapGet (mapSet m k v) k = some v := by
  induction m with
  | nil => simp [mapSet, mapGet]
  | cons p rest ih =>
    by_cases h : p.1 = k
    · simp [mapSet, h, mapGet]
    · simp [mapSet, h, mapGet, ih]

theorem mapGet_mapSet_ne {β : Type} (m : List (String × β)) {k k' : String} (v : β)
    (h : k' ≠ k) : mapGet (mapSet m k v) k' = mapGet m k' := by
  have hkk : k ≠ k' := Ne.symm h
  induction m with
  | nil => simp [mapSet, mapGet, hkk]
  | cons p rest ih =>
    by_cases hp : p.1 = k
    · simp [mapSet, hp, mapGet, hkk]
    · simp [mapSet, hp, mapGet, ih]

theorem mem_mapSet {β : Type} {m : List (String × β)} {k : String} {v : β} {p : String × β}
    (h : p ∈ mapSet m k v) : p ∈ m ∨ p = (k, v) := by
  induction m with
  | nil =>
    simp [mapSet] at h
    exact Or.inr h
  | cons q rest ih =>
    by_cases hq : q.1 = k
    · simp [mapSet, hq] at h
      rcases h with h | h
      · exact Or.inr h
      · exact Or.inl (List.mem_cons_of_mem _ h)
    · simp [mapSet, hq] at h
      rcases h with h | h
      · exact Or.inl (h ▸ List.mem_cons_self _ _)
      · rcases ih h with h' | h'
        · exact Or.inl (List.mem_cons_of_mem _ h')
        · exact Or.inr h'

theorem mapGet_mem {β : Type} {m : List (String × β)} {k : String} {v : β}
    (h : mapGet m k = some v) : (k, v) ∈ m := by
  induction m with
  | nil => simp [mapGet] at h
  | cons p rest ih =>
    by_cases hk : p.1 = k
    · rw [mapGet, if_pos hk] at h
      have : v = p.2 := by injection h with h'; exact h'.symm
      subst this
      subst hk
      exact List.mem_cons_self _ _
    · rw [mapGet, if_neg hk] at h
      exact List.mem_cons_of_mem _ (ih h)

theorem mapSet_mapSet {β : Type} (m : List (String × β)) (k : String) (v : β) :
    mapSet (mapSet m k v) k v = mapSet m k v := by
  induction m with
  | nil => simp [mapSet]
  | cons p rest ih =>
    by_cases h : p.1 = k
    · simp [mapSet, h]
    · simp [mapSet, h, ih]

/-! Helper lemmas about rounding and clamping. -/

theorem le_round_of_le {q : ℚ} {n : ℤ} (h : (n : ℚ) ≤ q) : n ≤ round q := by
  rw [round_eq, Int.le_floor]
  linarith

theorem clampNumber_mem {v a b : ℚ} (hab : a ≤ b) :
    a ≤ clampNumber v a b ∧ clampNumber v a b ≤ b := by
  unfold clampNumber
  constructor
  · exact le_min hab (le_max_left _ _)
  · exact min_le_left _ _

theorem clampNumber_of_mem {v a b : ℚ} (h1 : a ≤ v) (h2 : v ≤ b) :
    clampNumber v a b = v := by
  unfold clampNumber
  rw [max_eq_right h1, min_eq_right h2]

theorem clampNumber_clampNumber {v a b : ℚ} (hab : a ≤ b) :
    clampNumber (clampNumber v a b) a b = clampNumber v a b :=
  clampNumber_of_mem (clampNumber_mem hab).1 (clampNumber_mem hab).2

/-! Helper lemmas: operations that leave the block store untouched. -/

theorem selectBlock_blocks (s : EditorState) (id : String) :
    (selectBlock s id).blocks = s.blocks := by
  unfold selectBlock
  split
  · rfl
  · split <;> rfl

theorem selectBlock_activePointer (s : EditorState) (id : String) :
    (selectBlock s id).activePointer = s.activePointer := by
  unfold selectBlock
  split
  · rfl
  · split <;> rfl

theorem startPointerInteraction_blocks (s : EditorState) (pid : ℕ) (cx cy : ℚ)
    (bid : String) (mode : PointerMode) :
    (startPointerInteraction s pid cx cy bid mode).blocks = s.blocks := by
  unfold startPointerInteraction
  split
  · rfl
  · split <;> rfl

theorem endPointerInteraction_blocks (s : EditorState) (pid : ℕ) :
    (endPointerInteraction s pid).blocks = s.blocks := by
  unfold endPointerInteraction
  split
  · rfl
  · split <;> rfl

theorem sizeInvariant_congr {s t : EditorState} (hb : t.blocks = s.blocks)
    (h : sizeInvariant s) : sizeInvariant t := by
  intro p hp
  exact h p (hb ▸ hp)

theorem sizeInvariant_handlePointerMove (s : EditorState) (pid : ℕ) (cx cy : ℚ)
    (h : sizeInvariant s) : sizeInvariant (handlePointerMove s pid cx cy) := by
  unfold handlePointerMove
  split
  · exact h
  · split
    · exact h
    · split
      · exact h
      · rename_i scr1 active heq hne scr2 block hb
        intro p hp
        dsimp only at hp
        rcases mem_mapSet hp with hm | hm
        · exact h p hm
        · subst hm
          have hblk := h _ (mapGet_mem hb)
          cases active.mode <;> dsimp
          · exact hblk
          · exact ⟨le_max_left _ _, le_max_left _ _⟩

theorem sizeInvariant_numericInputChange (s : EditorState) (field : NumField)
    (v : Option ℚ) (h : sizeInvariant s) : sizeInvariant (numericInputChange s field v) := by
  unfold numericInputChange
  split
  · exact h
  · split
    · exact h
    · rename_i scr1 sid hsid scr2 block hb
      intro p hp
      dsimp only at hp
      rcases mem_mapSet hp with hm | hm
      · exact h p hm
      · subst hm
        have hblk := h _ (mapGet_mem hb)
        have hval : ∀ v0 : ℚ, (40 : ℤ) ≤ round (if v0 < 40 then (40 : ℚ) else v0) := by
          intro v0
          refine le_round_of_le ?_
          split
          · norm_num
          · push_cast
            linarith [not_lt.mp (by assumption : ¬v0 < 40)]
        cases field <;> dsimp [numFieldMin, setPosField]
        · exact hblk
        · exact hblk
        · exact ⟨hval _, hblk.2⟩
        · exact ⟨hblk.1, hval _⟩

theorem sizeInvariant_applyEditOp (s : EditorState) (op : EditOp)
    (h : sizeInvariant s) : sizeInvariant (applyEditOp s op) := by
  cases op with
  | pointerDown pid cx cy bid onHandle =>
    refine sizeInvariant_congr ?_ h
    show (blockPointerDown s pid cx cy bid onHandle).blocks = s.blocks
    unfold blockPointerDown
    rw [startPointerInteraction_blocks, selectBlock_blocks]
  | pointerMove pid cx cy => exact sizeInvariant_handlePointerMove s pid cx cy h
  | pointerUp pid => exact sizeInvariant_congr (endPointerInteraction_blocks s pid) h
  | numericEdit field v => exact sizeInvariant_numericInputChange s field v h

/-- C1: for every block in the store, after any sequence of drags, resizes and
inspector numeric edits, width and height stay at least 40, however negative
the requested deltas or input values. -/
theorem minSize_invariant (s : EditorState) (ops : List EditOp)
    (h : sizeInvariant s) : sizeInvariant (applyEdits s ops) := by
  induction ops generalizing s with
  | nil => exact h
  | cons op rest ih =>
    exact ih (applyEditOp s op) (sizeInvariant_applyEditOp s op h)

/-- Every block entering the store does so through `normalizeBlock`
(`loadLayout` and `createBlock`), which already enforces the 40px floor, so
the size invariant holds of every reachable store. -/
theorem normalizeBlock_minSize (genId : String) (raw : RawBlock) :
    40 ≤ (normalizeBlock genId raw).position.width ∧
    40 ≤ (normalizeBlock genId raw).position.height :=
  ⟨le_max_left _ _, le_max_left _ _⟩

/-- A sample block for concrete evaluations. -/
def c1Block : Block :=
  { id := "b1"
    type := "text"
    content := "Editable text"
    backgroundColor := "#ffffff"
    textColor := "#1c2333"
    borderRadius := 12
    imageUrl := none
    position := { left := 100, top := 100, width := 200, height := 150 } }

/-- A sample editor state holding `c1Block`, selected, with no interaction. -/
def c1State : EditorState :=
  { project := "default"
    layout := none
    blocks := [("b1", c1Block)]
    blockOrder := ["b1"]
    blockElements := ["b1"]
    selectedId := some "b1"
    activePointer := none
    format := "A4"
    orientation := "portrait"
    zoom := 1 }

/-- A hostile edit burst: a resize dragged far into the negatives, then
negative and non-finite inspector inputs. -/
def c1Ops : List EditOp :=
  [EditOp.pointerDown 1 0 0 "b1" true,
   EditOp.pointerMove 1 (-10000) (-10000),
   EditOp.pointerUp 1,
   EditOp.numericEdit NumField.width (some (-500)),
   EditOp.numericEdit NumField.height none]

/-- Witness for C1 at a concrete state and edit sequence. -/
theorem minSize_invariant_witness : sizeInvariant (applyEdits c1State c1Ops) :=
  minSize_invariant c1State c1Ops (by decide)

theorem startPointerInteraction_active (s : EditorState) (a : ActivePointer) (pid : ℕ)
    (cx cy : ℚ) (bid : String) (mode : PointerMode) (h : s.activePointer = some a) :
    startPointerInteraction s pid cx cy bid mode = s := by
  unfold startPointerInteraction
  rw [h]

/-- C2: while an interaction is active at zoom scale `z ≠ 0`, a pointer move
to `(cx, cy)` stores, for a drag, `origin + round(delta / z)` into left/top,
and for a resize the same into width/height floored at 40, where `delta` is
the screen-pixel offset from the interaction's start point. -/
theorem pointerMove_formula (s : EditorState) (active : ActivePointer) (block : Block)
    (cx cy : ℚ) (hap : s.activePointer = some active)
    (hb : mapGet s.blocks active.blockId = some block) (hz : s.zoom ≠ 0) :
    mapGet (handlePointerMove s active.pointerId cx cy).blocks active.blockId =
      some { block with position :=
        match active.mode with
        | PointerMode.drag =>
          { block.position with
              left := active.originLeft + round ((cx - active.startX) / s.zoom)
              top := active.originTop + round ((cy - active.startY) / s.zoom) }
        | PointerMode.resize =>
          { block.position with
              width := max 40 (active.originWidth + round ((cx - active.startX) / s.zoom))
              height := max 40 (active.originHeight + round ((cy - active.startY) / s.zoom)) } } := by
  unfold handlePointerMove
  rw [hap]
  dsimp only
  rw [if_neg (fun hh : active.pointerId ≠ active.pointerId => hh rfl), hb]
  dsimp only
  rw [if_neg hz, mapGet_mapSet_self]
  cases active.mode <;> dsimp only <;> rw [round_int_add, round_int_add]

/-- The sample block during an active drag. -/
def c2Active : ActivePointer :=
  { blockId := "b1"
    pointerId := 7
    mode := PointerMode.drag
    startX := 0
    startY := 0
    originLeft := 100
    originTop := 100
    originWidth := 200
    originHeight := 150 }

/-- The sample state during an active drag of `c1Block`-like geometry. -/
def c2State : EditorState :=
  { project := "default"
    layout := none
    blocks := [("b1", c1Block)]
    blockOrder := ["b1"]
    blockElements := ["b1"]
    selectedId := some "b1"
    activePointer := some c2Active
    format := "A4"
    orientation := "portrait"
    zoom := 1 }

/-- Witness for C2: dragging by `(50, -20)` at zoom 1 from origin `(100, 100)`
stores position `(150, 80)`. -/
theorem pointerMove_formula_witness :
    (mapGet (handlePointerMove c2State 7 50 (-20)).blocks "b1").map
      (fun b => (b.position.left, b.position.top)) = some (150, 80) := by
  have h := pointerMove_formula c2State c2Active c1Block 50 (-20) rfl rfl (by decide)
  rw [show (7 : ℕ) = c2Active.pointerId from rfl, show "b1" = c2Active.blockId from rfl, h]
  simp only [c2Active, c2State, c1Block, Option.map_some']
  norm_num [round_eq]

/-- C5: a pointer-down while an interaction is already active starts no new
interaction (the active pointer record is untouched) and leaves every block,
hence every stored position, unchanged. -/
theorem secondPointerDown_noop (s : EditorState) (a : ActivePointer) (pid : ℕ)
    (cx cy : ℚ) (bid : String) (onHandle : Bool) (h : s.activePointer = some a) :
    (blockPointerDown s pid cx cy bid onHandle).activePointer = some a ∧
    (blockPointerDown s pid cx cy bid onHandle).blocks = s.blocks := by
  have h1 : (selectBlock s bid).activePointer = some a := by
    rw [selectBlock_activePointer]
    exact h
  have h2 := startPointerInteraction_active (selectBlock s bid) a pid cx cy bid
      (if onHandle then PointerMode.resize else PointerMode.drag) h1
  simp only [blockPointerDown]
  rw [h2]
  exact ⟨h1, selectBlock_blocks s bid⟩

/-- Witness for C5 at a concrete state with an active drag. -/
theorem secondPointerDown_noop_witness :
    (blockPointerDown c2State 9 33 44 "b1" false).activePointer = some c2Active ∧
    (blockPointerDown c2State 9 33 44 "b1" false).blocks = c2State.blocks :=
  secondPointerDown_noop c2State c2Active 9 33 44 "b1" false rfl

/-- C6: when the remote create call fails, `createBlock` retains no local
mutation — block map, block order and rendered element set are unchanged. -/
theorem createBlock_failure_rollback (s : EditorState) (genId : String) :
    (createBlock s genId none).blocks = s.blocks ∧
    (createBlock s genId none).blockOrder = s.blockOrder ∧
    (createBlock s genId none).blockElements = s.blockElements :=
  ⟨rfl, rfl, rfl⟩

/-- C8: every zoom change — direct set, button step, modifier wheel, or
fit-to-panel — leaves the block store, and hence every stored position field,
unchanged: zoom is purely a rendering transform. -/
theorem zoom_preserves_geometry (s : EditorState) (v : Option ℚ) (delta dy cw px : ℚ)
    (ctrlOrMeta : Bool) :
    (setCanvasZoom s v).blocks = s.blocks ∧
    (adjustCanvasZoom s delta).blocks = s.blocks ∧
    (handleZoomWheel s ctrlOrMeta dy).blocks = s.blocks ∧
    (fitCanvasToPanel s cw px).blocks = s.blocks := by
  refine ⟨rfl, rfl, ?_, ?_⟩
  · unfold handleZoomWheel
    repeat' split
    all_goals rfl
  · unfold fitCanvasToPanel
    repeat' split
    any_goals rfl
    dsimp only
    repeat' split
    all_goals rfl

/-- Counterexample to C3 as stated: in the current client (`pages.js`), after
a failed load the previously loaded block `b1` is still in the store — the
claim that no block of the previous project remains is false. -/
theorem loadLayout_failure_counterexample :
    loadLayout c1State "other" (fun _ => "gen") none = c1State ∧
    mapGet (loadLayout c1State "other" (fun _ => "gen") none).blocks "b1" = some c1Block :=
  ⟨rfl, rfl⟩

/-- C3 (amended): when the layout fetch fails, the current client does not
propagate the error but leaves the store untouched, so previously loaded
blocks remain; only the legacy client (`app.js`) falls back to the default
empty layout, leaving the canvas without blocks. -/
theorem loadLayout_failure (s : EditorState) (project : String) (genIds : ℕ → String) :
    loadLayout s project genIds none = s ∧ legacyLoadLayout none = [] :=
  ⟨rfl, rfl⟩

theorem runDebounce_burst_aux {α : Type} (events : List (ℚ × α)) :
    ∀ (s : DebounceState α) (t : ℚ), s.deadline = some (t + 500) → s.saveCount = 0 →
      s.lastSaved = none → List.Chain' withinWindow ((t, s.current) :: events) →
      events.foldl scheduleSaveStep s =
        { current := (events.getLastD (t, s.current)).2
          deadline := some ((events.getLastD (t, s.current)).1 + 500)
          saveCount := 0
          lastSaved := none } := by
  induction events with
  | nil =>
    intro s t hd hc hl _
    cases s
    simp_all [List.getLastD]
  | cons e es ih =>
    intro s t hd hc hl hchain
    have h1 : withinWindow (t, s.current) e := (List.chain'_cons.mp hchain).1
    have h2 : List.Chain' withinWindow (e :: es) := (List.chain'_cons.mp hchain).2
    have hnotFire : ¬ t + 500 ≤ e.1 := by
      have := h1.2
      dsimp at this
      intro hcontra
      linarith
    have hstep : scheduleSaveStep s e =
        { current := e.2, deadline := some (e.1 + 500), saveCount := 0, lastSaved := none } := by
      unfold scheduleSaveStep checkTimer
      rw [hd]
      dsimp only
      rw [if_neg hnotFire, hc, hl]
    rw [List.foldl_cons, hstep]
    have hres := ih ⟨e.2, some (e.1 + 500), 0, none⟩ e.1 rfl rfl rfl (by simpa using h2)
    rw [hres, List.getLastD_cons]

/-- C4: a burst of N ≥ 1 edits, each arriving within 500 ms of the previous
one (each resetting the timer), yields exactly one debounced save, issued
after the burst and carrying the final state. -/
theorem debounce_single_save {α : Type} (init : α) (pre : List (ℚ × α)) (final : ℚ × α)
    (hchain : List.Chain' withinWindow (pre ++ [final])) :
    (runDebounce init (pre ++ [final])).saveCount = 1 ∧
    (runDebounce init (pre ++ [final])).lastSaved = some final.2 := by
  rcases hev : pre ++ [final] with _ | ⟨e, es⟩
  · exact absurd hev (by simp)
  · have hchain' : List.Chain' withinWindow (e :: es) := hev ▸ hchain
    have hstep0 : scheduleSaveStep ⟨init, none, 0, none⟩ e =
        { current := e.2, deadline := some (e.1 + 500), saveCount := 0, lastSaved := none } := by
      unfold scheduleSaveStep checkTimer
      rfl
    have hres := runDebounce_burst_aux es ⟨e.2, some (e.1 + 500), 0, none⟩
        e.1 rfl rfl rfl (by simpa using hchain')
    have hlast : es.getLastD e = final := by
      have h := List.getLastD_concat e final pre
      rw [hev, List.getLastD_cons] at h
      exact h
    unfold runDebounce
    rw [List.foldl_cons, hstep0, hres]
    dsimp only
    rw [show ((e.1, e.2) : ℚ × α) = e from rfl, hlast]
    unfold flushTimer fireSave
    exact ⟨rfl, rfl⟩

/-- The fit-zoom formula exactly as the spec words it: available width is the
panel width minus horizontal padding, and the zoom is that divided by the
page width, clamped to the allowed range. -/
def fitZoomSpec (pageWidth availableWidth : ℚ) : ℚ :=
  clampNumber (availableWidth / pageWidth) ZOOM_MIN ZOOM_MAX

/-- A loaded layout with a small 100×100 page. -/
def c7Layout : Layout :=
  { format := some "A4"
    orientation := some "portrait"
    dimensions := some ⟨100, 100⟩
    blocks := [] }

/-- An empty editor state showing `c7Layout` at zoom 1. -/
def c7State : EditorState :=
  { project := "default"
    layout := some c7Layout
    blocks := []
    blockOrder := []
    blockElements := []
    selectedId := none
    activePointer := none
    format := "A4"
    orientation := "portrait"
    zoom := 1 }

/-- Counterexample to C7 as stated: with page width 100 and a panel content
width of 50, the code floors the available width at 120 and sets zoom 1.2,
while the claimed formula `clamp(availableWidth / pageWidth)` gives 0.5. -/
theorem fitCanvasToPanel_counterexample :
    (fitCanvasToPanel c7State 50 0).zoom = 6 / 5 ∧
    fitZoomSpec 100 (50 - 0) = 1 / 2 ∧ ((6 : ℚ) / 5 ≠ 1 / 2) := by
  refine ⟨?_, ?_, by norm_num⟩
  · norm_num [fitCanvasToPanel, c7State, c7Layout, setCanvasZoom, clampNumber, roundTo2,
      ZOOM_MIN, ZOOM_MAX, round_eq, max_def, min_def, abs]
  · norm_num [fitZoomSpec, clampNumber, ZOOM_MIN, ZOOM_MAX, max_def, min_def]

/-- C7 (amended): `fitCanvasToPanel` computes
`nextZoom = clamp(max(clientWidth − paddingX, 120) / pageWidth, 0.5, 5.0)`
— the available width is floored at 120 — leaves the zoom unchanged when
`nextZoom` is within 0.01 of the current zoom, and otherwise sets the zoom to
`nextZoom` rounded to two decimals; with page width 794 and available width
397 the resulting zoom is 0.5. -/
theorem fitCanvasToPanel_formula (s : EditorState) (layout : Layout) (dims : Dimensions)
    (cw px : ℚ) (hl : s.layout = some layout) (hd : layout.dimensions = some dims)
    (hw : 0 < dims.width) (hh : dims.height ≠ 0) :
    (fitCanvasToPanel s cw px).zoom =
      (if |clampNumber (max (cw - px) 120 / dims.width) ZOOM_MIN ZOOM_MAX - s.zoom| < 1 / 100
        then s.zoom
        else roundTo2 (clampNumber (max (cw - px) 120 / dims.width) ZOOM_MIN ZOOM_MAX)) := by
  have hguard : ¬(dims.width = 0 ∨ dims.height = 0) := fun hc => hc.elim (ne_of_gt hw) hh
  have havail : (0 : ℚ) < max (cw - px) 120 :=
    lt_of_lt_of_le (by norm_num) (le_max_right _ _)
  have hwz : 0 < max (cw - px) 120 / dims.width := div_pos havail hw
  unfold fitCanvasToPanel
  rw [hl]
  dsimp only
  rw [hd]
  dsimp only
  rw [if_neg hguard]
  rw [if_neg (not_le.mpr havail), if_neg (not_le.mpr hwz)]
  split
  · rfl
  · unfold setCanvasZoom
    simp only [Option.getD_some]
    rw [clampNumber_clampNumber (by norm_num [ZOOM_MIN, ZOOM_MAX])]

/-- The A4-portrait layout of the C7 witness. -/
def c7FitLayout : Layout :=
  { format := some "A4"
    orientation := some "portrait"
    dimensions := some ⟨794, 1123⟩
    blocks := [] }

/-- An empty editor state showing `c7FitLayout` at zoom 1. -/
def c7FitState : EditorState :=
  { project := "default"
    layout := some c7FitLayout
    blocks := []
    blockOrder := []
    blockElements := []
    selectedId := none
    activePointer := none
    format := "A4"
    orientation := "portrait"
    zoom := 1 }

/-- Witness for C7 (amended), the claim's own instance: page width 794 with
available width 397 (client width 397, no padding) yields zoom 0.5. -/
theorem fitCanvasToPanel_formula_witness :
    (fitCanvasToPanel c7FitState 397 0).zoom = 1 / 2 := by
  have h := fitCanvasToPanel_formula c7FitState c7FitLayout ⟨794, 1123⟩ 397 0 rfl rfl
    (by norm_num) (by norm_num)
  rw [h]
  norm_num [clampNumber, ZOOM_MIN, ZOOM_MAX, roundTo2, round_eq, max_def, min_def,
    c7FitState, abs]

/-- The selection is consistent with the store: either nothing is selected or
the selected id has an entry in the block map. -/
def selectionConsistent (s : EditorState) : Prop :=
  (s.selectedId.map (fun id => (mapGet s.blocks id).isSome)).getD true = true

instance (s : EditorState) : Decidable (selectionConsistent s) := by
  unfold selectionConsistent
  infer_instance

/-- C9: selection stays consistent with the store under select, deselect and
delete, and selecting an id absent from the map clears the selection instead
of keeping the previous one. -/
theorem selection_consistency (s : EditorState) (id : String) (ok : Bool)
    (h : selectionConsistent s) :
    selectionConsistent (selectBlock s id) ∧
    selectionConsistent (deselectBlock s) ∧
    selectionConsistent (deleteBlock s id ok) ∧
    (mapGet s.blocks id = none → (selectBlock s id).selectedId = none) := by
  refine ⟨?_, ?_, ?_, ?_⟩
  · unfold selectBlock
    split
    · exact h
    · split
      · rename_i b hb hel
        unfold selectionConsistent
        simp only [Option.map_some', Option.getD_some]
        rw [hb]
        rfl
      · unfold selectionConsistent
        rfl
  · unfold selectionConsistent deselectBlock
    rfl
  · unfold deleteBlock
    split
    · exact h
    · unfold selectionConsistent deselectBlock
      rfl
  · intro hnone
    unfold selectBlock
    split
    · rename_i hsel
      unfold selectionConsistent at h
      rw [hsel] at h
      dsimp only [Option.map_some', Option.getD_some] at h
      rw [hnone] at h
      exact absurd h (by simp)
    · split
      · rename_i b hb hel
        rw [hnone] at hb
        exact absurd hb (by simp)
      · rfl

/-- Witness for C9 at a concrete consistent state. -/
theorem selection_consistency_witness :
    selectionConsistent (selectBlock c1State "ghost") ∧
    selectionConsistent (deselectBlock c1State) ∧
    selectionConsistent (deleteBlock c1State "ghost" true) ∧
    (mapGet c1State.blocks "ghost" = none →
      (selectBlock c1State "ghost").selectedId = none) :=
  selection_consistency c1State "ghost" true (by decide)

theorem mapGet_getOrCreate {β : Type} (m : List (String × β)) (k : String) (d : β) :
    mapGet (if (mapGet m k).isSome then m else mapSet m k d) k =
      some ((mapGet m k).getD d) := by
  cases h : mapGet m k with
  | some v => simp [h]
  | none => simp [h, mapGet_mapSet_self]

theorem filter_self_idem {β : Type} (p : β → Bool) (l : List β) :
    (l.filter p).filter p = l.filter p := by
  induction l with
  | nil => rfl
  | cons x xs ih =>
    by_cases h : p x
    · simp [List.filter_cons, h, ih]
    · simp [List.filter_cons, h, ih]

theorem deleteFromLayout_blocks (lay : ServerLayout) (bid : String) :
    (deleteFromLayout lay bid).blocks = lay.blocks.filter (fun b => b.id != bid) := rfl

theorem deleteFromLayout_idem (lay : ServerLayout) (bid : String) :
    deleteFromLayout (deleteFromLayout lay bid) bid = deleteFromLayout lay bid := by
  unfold deleteFromLayout
  dsimp only
  rw [filter_self_idem]

theorem blockApiDelete_unfold (layouts : List (String × ServerLayout)) (project bid : String) :
    blockApiDelete layouts project bid =
      (mapSet
        (if (mapGet layouts project).isSome then layouts
          else mapSet layouts project get_default_layout)
        project
        (deleteFromLayout ((mapGet layouts project).getD get_default_layout) bid), true) := by
  simp only [blockApiDelete]
  rw [mapGet_getOrCreate]
  rfl

/-- C10: the server-side delete branch removes every block with the given id
from the project's layout, keeps all other blocks (and all other projects)
unchanged, reports success even when nothing matched, and is idempotent. -/
theorem blockApiDelete_idempotent (layouts : List (String × ServerLayout))
    (project bid : String) :
    (blockApiDelete layouts project bid).2 = true ∧
    (∀ b ∈ ((mapGet (blockApiDelete layouts project bid).1 project).getD
        get_default_layout).blocks, b.id ≠ bid) ∧
    ((mapGet (blockApiDelete layouts project bid).1 project).getD
        get_default_layout).blocks =
      ((mapGet layouts project).getD get_default_layout).blocks.filter
        (fun b => b.id != bid) ∧
    (∀ p, p ≠ project →
      mapGet (blockApiDelete layouts project bid).1 p = mapGet layouts p) ∧
    blockApiDelete (blockApiDelete layouts project bid).1 project bid =
      blockApiDelete layouts project bid := by
  have hu := blockApiDelete_unfold layouts project bid
  have hkey : mapGet (blockApiDelete layouts project bid).1 project =
      some (deleteFromLayout ((mapGet layouts project).getD get_default_layout) bid) := by
    rw [hu]
    exact mapGet_mapSet_self _ _ _
  refine ⟨by rw [hu], ?_, ?_, ?_, ?_⟩
  · rw [hkey]
    simp only [Option.getD_some, deleteFromLayout_blocks]
    intro b hb
    have hmem := List.mem_filter.mp hb
    simpa using hmem.2
  · rw [hkey]
    simp only [Option.getD_some, deleteFromLayout_blocks]
  · intro p hp
    rw [hu]
    dsimp only
    rw [mapGet_mapSet_ne _ _ hp]
    by_cases hcase : (mapGet layouts project).isSome
    · rw [if_pos hcase]
    · rw [if_neg hcase, mapGet_mapSet_ne _ _ hp]
  · rw [hu]
    dsimp only
    rw [blockApiDelete_unfold, mapGet_mapSet_self]
    simp only [Option.isSome_some, Option.getD_some]
    rw [if_pos trivial, deleteFromLayout_idem, mapSet_mapSet]

/-- The concrete burst for the C4 witness: five edits, 100 ms apart, whose
payloads are the successive document versions 1–5. -/
def c4Pre : List (ℚ × ℤ) := [(0, 1), (100, 2), (200, 3), (300, 4)]

/-- Witness for C4: the five rapid edits produce exactly one save and it
carries the final payload. -/
theorem debounce_single_save_witness :
    (runDebounce (0 : ℤ) (c4Pre ++ [(400, 5)])).saveCount = 1 ∧
    (runDebounce (0 : ℤ) (c4Pre ++ [(400, 5)])).lastSaved = some 5 :=
  debounce_single_save (0 : ℤ) c4Pre (400, 5)
    (by norm_num [c4Pre, List.chain'_cons, List.chain'_singleton, withinWindow])

end Fyona
